import Mathlib

/-!
Verification of the in-memory item store and its four CRUD request
handlers from src/node/app.js of the Hack-Your-Future repository.

The store is the module-level array
  let items = [ id 1, name Element ]
and the four Express handlers are, in order of registration:
  GET    /items      : res.json(items)
  POST   /items      : push id = items.length + 1, name = req.body.name; 201
  PUT    /items/:id  : find first item with id === parseInt(req.params.id);
                       if absent, send 404, then fall through to
                       item.name = req.body.name, which throws a TypeError
                       on undefined; if present, overwrite its name and
                       send it back with status 200
  DELETE /items/:id  : items = items.filter(i => i.id !== parseInt(...)); 204

JavaScript values that can appear in req.body.name (the handler performs
no validation) are modelled by JsValue; parseInt of a non-numeric path
segment yields NaN, which compares unequal to every number under === and
unequal-compares true under !==, so the parsed path id is modelled as an
Option Int with none standing for NaN.
-/

namespace HackYourFuture

/-- A JavaScript value as it may arrive in req.body.name: the handler
stores whatever it receives, including undefined when the field is
missing from the request body. -/
inductive JsValue where
  | undefined : JsValue
  | null : JsValue
  | bool (b : Bool) : JsValue
  | num (n : Int) : JsValue
  | str (s : String) : JsValue
deriving DecidableEq, Repr

/-- One stored item: an object with an id field and a name field,
per the seed literal and the POST handler in app.js. -/
structure Item where
  id : Int
  name : JsValue
deriving DecidableEq, Repr

/-- The module-level store at process start:
let items = [ id 1, name Element ]  (app.js line 150). -/
def seedStore : List Item := [⟨1, JsValue.str "Element"⟩]

/-- The comparison i.id === parseInt(req.params.id) from the PUT handler.
A parsed id of none stands for NaN (non-numeric path segment), and
NaN === x is false for every x. -/
def matchesId : Option Int → Item → Bool
  | some n, i => i.id == n
  | none, _ => false

/-- GET /items (app.js lines 157-159): res.json(items). Returns the
response body and the store after the request. -/
def getItemsHandler (items : List Item) : List Item × List Item :=
  (items, items)

/-- POST /items (app.js lines 163-170): builds an item with
id = items.length + 1 and name = req.body.name, pushes it, and answers
201 with the new item. Returns ((status, body), store after). -/
def postItemsHandler (items : List Item) (name : JsValue) : (Nat × Item) × List Item :=
  ((201, ⟨(items.length : Int) + 1, name⟩),
    items ++ [⟨(items.length : Int) + 1, name⟩])

/-- Observable outcome of the PUT handler. ok status item means a single
response res.json(item) with the given status was sent. notFoundCrash
means the 404 Item-not-found response was sent and the handler then fell
through to the line item.name = req.body.name with item undefined, which
throws a TypeError before any further response or any store mutation. -/
inductive PutOutcome where
  | ok (status : Nat) (item : Item)
  | notFoundCrash
deriving DecidableEq, Repr

/-- Overwriting the name field of the object returned by items.find:
only the first item satisfying the predicate has its name replaced,
everything else is untouched. -/
def updateFirst (p : Item → Bool) (name : JsValue) : List Item → List Item
  | [] => []
  | x :: xs => if p x then ⟨x.id, name⟩ :: xs else x :: updateFirst p name xs

/-- PUT /items/:id (app.js lines 174-179):
let item = items.find(i => i.id === parseInt(req.params.id));
if(!item) res.status(404).send(..); item.name = req.body.name; res.json(item).
There is no early return: when find yields undefined the handler sends
404 and then throws a TypeError assigning .name on undefined, leaving
the store unchanged. When find yields a match, that object's name is
overwritten in place and the updated object is sent with status 200. -/
def putItemsHandler (items : List Item) (pid : Option Int) (name : JsValue) :
    PutOutcome × List Item :=
  match items.find? (matchesId pid) with
  | none => (PutOutcome.notFoundCrash, items)
  | some m => (PutOutcome.ok 200 ⟨m.id, name⟩, updateFirst (matchesId pid) name items)

/-- DELETE /items/:id (app.js lines 183-186):
items = items.filter(i => i.id !== parseInt(req.params.id)); 204 with
empty body. With a NaN parsed id the !== test holds for every item and
the filter keeps everything. Returns (status, store after). -/
def deleteItemsHandler (items : List Item) (pid : Option Int) : Nat × List Item :=
  (204, items.filter (fun i => !(matchesId pid i)))

/-- A client request that can mutate the store. -/
inductive Op where
  | create (name : JsValue)
  | update (pid : Option Int) (name : JsValue)
  | delete (pid : Option Int)
deriving DecidableEq, Repr

/-- The store after serving one request; GET is omitted because it
returns the store unchanged. -/
def applyOp (items : List Item) : Op → List Item
  | Op.create v => (postItemsHandler items v).2
  | Op.update pid v => (putItemsHandler items pid v).2
  | Op.delete pid => (deleteItemsHandler items pid).2

/-- The store after serving a sequence of requests in order. -/
def runOps (items : List Item) (ops : List Op) : List Item :=
  ops.foldl applyOp items

/-- Whether a request is a DELETE. -/
def Op.isDelete : Op → Bool
  | Op.delete _ => true
  | _ => false

/-- The id sequence 1, 2, ..., n that length-plus-one assignment
produces when nothing has ever been deleted. -/
def idSeq : Nat → List Int
  | 0 => []
  | n + 1 => idSeq n ++ [(n : Int) + 1]

lemma updateFirst_map_id (p : Item → Bool) (v : JsValue) :
    ∀ l : List Item, (updateFirst p v l).map Item.id = l.map Item.id := by
  intro l
  induction l with
  | nil => rfl
  | cons x xs ih =>
    by_cases h : p x
    · simp [updateFirst, h]
    · simp [updateFirst, h, ih]

lemma idSeq_length (n : Nat) : (idSeq n).length = n := by
  induction n with
  | zero => rfl
  | succ n ih => simp [idSeq, ih]

lemma idSeq_mem_le (n : Nat) (x : Int) (hx : x ∈ idSeq n) : x ≤ (n : Int) := by
  induction n with
  | zero => simp [idSeq] at hx
  | succ n ih =>
    simp only [idSeq, List.mem_append, List.mem_singleton] at hx
    rcases hx with h | h
    · have := ih h
      omega
    · omega

lemma idSeq_nodup (n : Nat) : (idSeq n).Nodup := by
  induction n with
  | zero => simp [idSeq]
  | succ n ih =>
    simp only [idSeq, List.nodup_append, List.nodup_cons, List.not_mem_nil,
      List.nodup_nil, List.disjoint_singleton]
    refine ⟨ih, by simp, ?_⟩
    intro hmem
    have := idSeq_mem_le n _ hmem
    omega

lemma find?_none_of_all (p : Item → Bool) :
    ∀ l : List Item, (∀ x ∈ l, p x = false) → l.find? p = none := by
  intro l h
  exact List.find?_eq_none.mpr (by intro x hx; simp [h x hx])

lemma find?_append_first (p : Item → Bool) (m : Item) (l2 : List Item) (hm : p m = true) :
    ∀ l1 : List Item, (∀ x ∈ l1, p x = false) →
      (l1 ++ m :: l2).find? p = some m := by
  intro l1
  induction l1 with
  | nil => intro _; simp [List.find?, hm]
  | cons x xs ih =>
    intro h
    have hx : p x = false := h x (by simp)
    simp only [List.cons_append, List.find?, hx]
    exact ih (fun y hy => h y (by simp [hy]))

lemma updateFirst_append_first (p : Item → Bool) (v : JsValue) (m : Item)
    (l2 : List Item) (hm : p m = true) :
    ∀ l1 : List Item, (∀ x ∈ l1, p x = false) →
      updateFirst p v (l1 ++ m :: l2) = l1 ++ ⟨m.id, v⟩ :: l2 := by
  intro l1
  induction l1 with
  | nil => intro _; simp [updateFirst, hm]
  | cons x xs ih =>
    intro h
    have hx : p x = false := h x (by simp)
    simp only [List.cons_append, updateFirst, hx, Bool.false_eq_true, if_false,
      List.cons.injEq, true_and]
    exact ih (fun y hy => h y (by simp [hy]))

lemma applyOp_map_id_no_delete (s : List Item) (o : Op) (ho : o.isDelete = false)
    (hs : s.map Item.id = idSeq s.length) :
    (applyOp s o).map Item.id = idSeq (applyOp s o).length := by
  cases o with
  | create v =>
    simp only [applyOp, postItemsHandler, List.map_append, List.length_append,
      List.map_cons, List.map_nil, List.length_cons, List.length_nil, hs]
    simp [idSeq]
  | update pid v =>
    simp only [applyOp, putItemsHandler]
    cases h : s.find? (matchesId pid) with
    | none => simpa using hs
    | some m =>
      have hmap := updateFirst_map_id (matchesId pid) v s
      have hlen : (updateFirst (matchesId pid) v s).length = s.length := by
        have := congrArg List.length hmap
        simpa using this
      simp only [hmap, hlen]
      exact hs
  | delete pid => simp [Op.isDelete] at ho

lemma runOps_map_id_no_delete (ops : List Op) :
    ∀ s : List Item, (∀ o ∈ ops, o.isDelete = false) →
      s.map Item.id = idSeq s.length →
      (runOps s ops).map Item.id = idSeq (runOps s ops).length := by
  induction ops with
  | nil => intro s _ hs; simpa [runOps] using hs
  | cons o ops ih =>
    intro s h hs
    have h1 : (applyOp s o).map Item.id = idSeq (applyOp s o).length :=
      applyOp_map_id_no_delete s o (h o (by simp)) hs
    have : runOps s (o :: ops) = runOps (applyOp s o) ops := by
      simp [runOps, List.foldl_cons]
    rw [this]
    exact ih (applyOp s o) (fun x hx => h x (by simp [hx])) h1

/-- C7: a freshly created store, before any client request, contains
exactly one Item, id 1 with name Element, and List on that fresh store
returns exactly that one Item. -/
theorem seed_store_single_element :
    seedStore = [⟨1, JsValue.str "Element"⟩] ∧
    getItemsHandler seedStore =
      ([⟨1, JsValue.str "Element"⟩], [⟨1, JsValue.str "Element"⟩]) :=
  ⟨rfl, rfl⟩

/-- C8: List returns the full ordered sequence unmodified and has no
side effect: any number of consecutive List calls leaves the store
exactly as it was, and each call answers with the current store. -/
theorem list_non_destructive (s : List Item) (n : Nat) :
    (getItemsHandler s).1 = s ∧ (getItemsHandler s).2 = s ∧
    (fun t => (getItemsHandler t).2)^[n] s = s :=
  ⟨rfl, rfl, Function.iterate_fixed rfl n⟩

/-- C3: on a store with N items, Create with a string name answers 201
with the Item of id N+1 and that name, and the store afterwards is the
old sequence with exactly that Item appended at the end, so a subsequent
List shows N+1 items with the new one last and all prior items unchanged. -/
theorem create_appends_assigns_id (s : List Item) (nm : String) :
    (postItemsHandler s (JsValue.str nm)).1.1 = 201 ∧
    (postItemsHandler s (JsValue.str nm)).1.2 =
      ⟨(s.length : Int) + 1, JsValue.str nm⟩ ∧
    (postItemsHandler s (JsValue.str nm)).2 =
      s ++ [⟨(s.length : Int) + 1, JsValue.str nm⟩] ∧
    (postItemsHandler s (JsValue.str nm)).2.length = s.length + 1 ∧
    getItemsHandler (postItemsHandler s (JsValue.str nm)).2 =
      ((postItemsHandler s (JsValue.str nm)).2,
        (postItemsHandler s (JsValue.str nm)).2) :=
  ⟨rfl, rfl, rfl, by simp [postItemsHandler], rfl⟩

/-- C9: Create validates nothing: for every store with N items and every
request-body name value, including undefined, null and non-string values,
it answers 201 and appends the Item of id N+1 carrying the supplied value
as-is. -/
theorem create_no_validation (s : List Item) (v : JsValue) :
    (postItemsHandler s v).1.1 = 201 ∧
    (postItemsHandler s v).1.2 = ⟨(s.length : Int) + 1, v⟩ ∧
    (postItemsHandler s v).2 = s ++ [⟨(s.length : Int) + 1, v⟩] :=
  ⟨rfl, rfl, rfl⟩

/-- C4: Delete answers 204 on every input, keeps a subsequence of the
store (relative order of survivors preserved), retains exactly the Items
whose id differs from the requested one, and is idempotent: deleting the
same id again changes nothing and still answers 204. -/
theorem delete_removes_matching_idempotent (s : List Item) (n : Int) :
    (deleteItemsHandler s (some n)).1 = 204 ∧
    (deleteItemsHandler s (some n)).2.Sublist s ∧
    (∀ x : Item, x ∈ (deleteItemsHandler s (some n)).2 ↔ x ∈ s ∧ x.id ≠ n) ∧
    deleteItemsHandler (deleteItemsHandler s (some n)).2 (some n) =
      (204, (deleteItemsHandler s (some n)).2) := by
  refine ⟨rfl, ?_, ?_, ?_⟩
  · exact List.filter_sublist s
  · intro x
    simp [deleteItemsHandler, List.mem_filter, matchesId]
  · simp only [deleteItemsHandler, Prod.mk.injEq, true_and]
    apply List.filter_eq_self.mpr
    intro a ha
    exact (List.mem_filter.mp ha).2

/-- C5: when the store holds a first Item of the requested id, Update
answers 200 with that Item carrying the new name, and the store
afterwards is the same sequence with only that position's name replaced:
every other Item, the order and the length are unchanged. -/
theorem update_mutates_only_target (l1 : List Item) (m : Item) (l2 : List Item)
    (n : Int) (v : JsValue) (hm : m.id = n) (h1 : ∀ x ∈ l1, x.id ≠ n) :
    putItemsHandler (l1 ++ m :: l2) (some n) v =
      (PutOutcome.ok 200 ⟨m.id, v⟩, l1 ++ ⟨m.id, v⟩ :: l2) := by
  have hpm : matchesId (some n) m = true := by simp [matchesId, hm]
  have hp1 : ∀ x ∈ l1, matchesId (some n) x = false := by
    intro x hx
    simpa [matchesId] using h1 x hx
  have hf := find?_append_first (matchesId (some n)) m l2 hpm l1 hp1
  have hu := updateFirst_append_first (matchesId (some n)) v m l2 hpm l1 hp1
  simp [putItemsHandler, hf, hu]

/-- Witness for C5 at the spec's P3 example: updating id 2 in the store
of items (1, A) and (2, B) to name C. -/
theorem update_mutates_only_target_witness :
    putItemsHandler [⟨1, JsValue.str "A"⟩, ⟨2, JsValue.str "B"⟩]
        (some 2) (JsValue.str "C") =
      (PutOutcome.ok 200 ⟨2, JsValue.str "C"⟩,
        [⟨1, JsValue.str "A"⟩, ⟨2, JsValue.str "C"⟩]) :=
  update_mutates_only_target [⟨1, JsValue.str "A"⟩] ⟨2, JsValue.str "B"⟩ []
    2 (JsValue.str "C") rfl (by decide)

/-- C6: a non-numeric path id parses to NaN and behaves exactly as an
absent id: Delete keeps the whole store and answers 204, Update takes the
not-found path, and for any id held by no Item the numeric outcome
coincides with the NaN outcome, so no distinct error exists for
non-numeric ids. -/
theorem non_numeric_id_as_absent (s : List Item) (v : JsValue) (k : Int)
    (hk : ∀ x ∈ s, x.id ≠ k) :
    deleteItemsHandler s none = (204, s) ∧
    deleteItemsHandler s (some k) = deleteItemsHandler s none ∧
    putItemsHandler s none v = (PutOutcome.notFoundCrash, s) ∧
    putItemsHandler s (some k) v = putItemsHandler s none v := by
  have hdel : deleteItemsHandler s none = (204, s) := by
    simp only [deleteItemsHandler, Prod.mk.injEq, true_and]
    apply List.filter_eq_self.mpr
    intro a _
    simp [matchesId]
  have hdelk : deleteItemsHandler s (some k) = (204, s) := by
    simp only [deleteItemsHandler, Prod.mk.injEq, true_and]
    apply List.filter_eq_self.mpr
    intro a ha
    simpa [matchesId] using hk a ha
  have hfnone : s.find? (matchesId none) = none :=
    find?_none_of_all _ s (fun x _ => rfl)
  have hfk : s.find? (matchesId (some k)) = none := by
    apply find?_none_of_all
    intro x hx
    simpa [matchesId] using hk x hx
  refine ⟨hdel, by rw [hdelk, hdel], ?_, ?_⟩
  · simp [putItemsHandler, hfnone]
  · simp [putItemsHandler, hfnone, hfk]

/-- Witness for C6 at the store of item (1, A) with absent id 99. -/
theorem non_numeric_id_as_absent_witness :
    deleteItemsHandler [⟨1, JsValue.str "A"⟩] none = (204, [⟨1, JsValue.str "A"⟩]) ∧
    deleteItemsHandler [⟨1, JsValue.str "A"⟩] (some 99) =
      deleteItemsHandler [⟨1, JsValue.str "A"⟩] none ∧
    putItemsHandler [⟨1, JsValue.str "A"⟩] none (JsValue.str "X") =
      (PutOutcome.notFoundCrash, [⟨1, JsValue.str "A"⟩]) ∧
    putItemsHandler [⟨1, JsValue.str "A"⟩] (some 99) (JsValue.str "X") =
      putItemsHandler [⟨1, JsValue.str "A"⟩] none (JsValue.str "X") :=
  non_numeric_id_as_absent [⟨1, JsValue.str "A"⟩] (JsValue.str "X") 99 (by decide)

/-- C1 (against the code as written): on the store of item (1, A), Update
of the absent id 99 does not take a single early-exit path; the handler
sends the 404 response and then falls through to the mutation line,
throwing a TypeError on undefined. The store is left unchanged, but the
request crashes instead of completing cleanly. -/
theorem update_missing_id_crashes :
    putItemsHandler [⟨1, JsValue.str "A"⟩] (some 99) (JsValue.str "X") =
      (PutOutcome.notFoundCrash, [⟨1, JsValue.str "A"⟩]) := by
  rfl

/-- C2 counterexample: after Create, Delete id 1, Create starting from
the seeded store, the store holds two Items that both carry id 2, so id
uniqueness does not survive arbitrary operation sequences. -/
theorem reachable_duplicate_ids :
    ¬ (((runOps seedStore
        [Op.create (JsValue.str "B"), Op.delete (some 1),
          Op.create (JsValue.str "C")]).map Item.id).Nodup) := by
  decide

/-- C2 amended: in every store state reachable from the seeded store by
Create and Update operations alone (no Delete), the ids of the stored
Items are pairwise distinct. -/
theorem no_delete_ids_nodup (ops : List Op) (h : ∀ o ∈ ops, o.isDelete = false) :
    ((runOps seedStore ops).map Item.id).Nodup := by
  have hseed : seedStore.map Item.id = idSeq seedStore.length := by decide
  have hids := runOps_map_id_no_delete ops seedStore h hseed
  rw [hids]
  exact idSeq_nodup _

/-- Witness for the amended C2 on a Create followed by an Update. -/
theorem no_delete_ids_nodup_witness :
    ((runOps seedStore
        [Op.create (JsValue.str "X"),
          Op.update (some 1) (JsValue.str "Y")]).map Item.id).Nodup :=
  no_delete_ids_nodup
    [Op.create (JsValue.str "X"), Op.update (some 1) (JsValue.str "Y")]
    (by decide)

/-- C10: no operation rewrites the id of an Item already stored: Update
leaves the id sequence exactly as it was, Create only appends the fresh
id N+1 after the untouched old ids, and Delete keeps a subsequence of the
store itself, so every surviving Item is bit-for-bit an Item that was
already stored. -/
theorem id_stability (s : List Item) (pid : Option Int) (v : JsValue) :
    ((putItemsHandler s pid v).2).map Item.id = s.map Item.id ∧
    ((postItemsHandler s v).2).map Item.id =
      s.map Item.id ++ [(s.length : Int) + 1] ∧
    ((deleteItemsHandler s pid).2).Sublist s := by
  refine ⟨?_, by simp [postItemsHandler], ?_⟩
  · cases h : s.find? (matchesId pid) with
    | none => simp [putItemsHandler, h]
    | some m => simp [putItemsHandler, h, updateFirst_map_id]
  · exact List.filter_sublist s

end HackYourFuture
